import Mathlib

/-!
Shallow embedding of the configator hydration core (`src/configator/core.py`).

Python strings are modelled as lists of characters (`PyStr`), with ASCII models
of `str.lower`, `str.strip`, `str.replace("-", "_")` and `str.startswith`.
The 1Password client, `json.loads` and the Python container constructors are
external collaborators and are modelled as function parameters; remote
`secrets.resolve` calls are counted explicitly in the embedding's results.
-/

abbrev PyStr := List Char

/-- Model of lowercasing a single character (ASCII range of `str.lower`). -/
def lowerChar (c : Char) : Char :=
  if 65 ≤ c.toNat ∧ c.toNat ≤ 90 then Char.ofNat (c.toNat + 32) else c

/-- Model of `str.lower`. -/
def pyLower (s : PyStr) : PyStr := s.map lowerChar

/-- One character of `str.replace("-", "_")`. -/
def replaceDashChar (c : Char) : Char := if c = '-' then '_' else c

/-- Model of `str.replace("-", "_")`. -/
def pyReplaceDash (s : PyStr) : PyStr := s.map replaceDashChar

/-- Whitespace characters stripped by `str.strip()` (ASCII model). -/
def isPySpace (c : Char) : Bool :=
  c = ' ' || c = '\t' || c = '\n' || c = '\r' || c = '\x0b' || c = '\x0c'

/-- Model of `str.strip()`: drop whitespace from both ends. -/
def pyStrip (s : PyStr) : PyStr :=
  ((s.dropWhile isPySpace).reverse.dropWhile isPySpace).reverse

/-- Model of `s.startswith(pat)`: first argument is the string, second the pattern. -/
def listStartsWith : PyStr → PyStr → Bool
  | _, [] => true
  | [], _ :: _ => false
  | c :: s, d :: p => c = d && listStartsWith s p

/-- The `op://` marker that makes a value an indirect reference. -/
def opLinkMarker : PyStr := "op://".data

/-- `ItemField` from onepassword.types: title, raw value, optional section id. -/
structure ItemField where
  title : PyStr
  value : PyStr
  section_id : Option PyStr
deriving DecidableEq, Repr

/-- `ItemSection` from onepassword.types: id and title. -/
structure ItemSection where
  id : PyStr
  title : PyStr
deriving DecidableEq, Repr

/-- `Item` from onepassword.types, restricted to the parts the core reads. -/
structure Item where
  fields : List ItemField
  sections : List ItemSection
deriving DecidableEq, Repr

/-- Embedding of `_op_field_name_to_lower_snake_case`:
`name.replace("-", "_").lower()`. -/
def opFieldNameToLowerSnakeCase (name : PyStr) : PyStr :=
  pyLower (pyReplaceDash name)

/-- Embedding of `_field_matcher` (core.py lines 46-49):
normalized title equals `title` and (`section_id is None or
field.section_id == section_id`). -/
def fieldMatcher (field : ItemField) (title : PyStr) (section_id : Option PyStr) : Bool :=
  decide (opFieldNameToLowerSnakeCase field.title = title) &&
    (section_id.isNone || decide (field.section_id = section_id))

/-- The empty Python dict, as a partial map. -/
def emptyDict : PyStr → Option PyStr := fun _ => none

/-- Inserting into a Python dict: the new binding shadows any earlier one. -/
def dictInsert (m : PyStr → Option PyStr) (k v : PyStr) : PyStr → Option PyStr :=
  fun q => if q = k then some v else m q

/-- One step of the dict comprehension in `_get_sections`:
`{s.title.lower(): s.id for s in item.sections if s.title}`. -/
def gsStep (m : PyStr → Option PyStr) (s : ItemSection) : PyStr → Option PyStr :=
  if s.title = [] then m else dictInsert m (pyLower s.title) s.id

/-- Embedding of `_get_sections` (core.py lines 79-81). -/
def getSections (item : Item) : PyStr → Option PyStr :=
  item.sections.foldl gsStep emptyDict

/-- Python exceptions that can escape the hydration core. -/
inductive PyErr where
  | stopIteration
  | jsonDecodeError
  | runtimeError
  | valueError
  | typeError
deriving DecidableEq, Repr

/-- The truthy vocabulary of `_parse_bool`. -/
def truthy : List PyStr := ["true".data, "1".data, "yes".data, "on".data]

/-- The falsy vocabulary of `_parse_bool` (named `trumpy` in the source). -/
def trumpy : List PyStr := ["false".data, "0".data, "no".data, "off".data]

/-- Embedding of `_parse_bool` (core.py lines 166-176):
strip, lowercase, look up in the two vocabularies, else `ValueError`. -/
def parseBool (str_val : PyStr) : Except PyErr Bool :=
  let val_lower := pyLower (pyStrip str_val)
  if val_lower ∈ truthy then .ok true
  else if val_lower ∈ trumpy then .ok false
  else .error .valueError

/-- The 1Password client, reduced to the single operation the resolver uses. -/
structure OpClient where
  resolve : PyStr → PyStr

/-- Loop body of `_resolve_op_link` (core.py lines 179-189), carrying the
`moria_level` hop counter and the number of client calls made so far.
Returns the resolved value (or the `RuntimeError` of a too-deep chain)
together with the total number of `client.secrets.resolve` calls. -/
def resolveAux (client : OpClient) (link : PyStr) (moria_level : Nat) (calls : Nat) :
    Except PyErr PyStr × Nat :=
  if listStartsWith link opLinkMarker then
    let link2 := client.resolve link
    if h : moria_level + 1 > 9 then (.error .runtimeError, calls + 1)
    else resolveAux client link2 (moria_level + 1) (calls + 1)
  else (.ok link, calls)
termination_by 10 - moria_level
decreasing_by omega

/-- Embedding of `_resolve_op_link`: start at `moria_level = 0`, zero calls. -/
def resolveOpLink (client : OpClient) (link : PyStr) : Except PyErr PyStr × Nat :=
  resolveAux client link 0 0

/-- The string obtained after `n` successive client resolve calls. -/
def clientIter (client : OpClient) (link : PyStr) : Nat → PyStr
  | 0 => link
  | n + 1 => client.resolve (clientIter client link n)

/-- A reference chain of length `k`: the first `k` iterates are `op://`
references and the `k`-th iterate is a concrete value. -/
def chainOfLength (client : OpClient) (link : PyStr) (k : Nat) : Prop :=
  (∀ i < k, listStartsWith (clientIter client link i) opLinkMarker = true) ∧
  listStartsWith (clientIter client link k) opLinkMarker = false

/-- A minimal JSON value model for `json.loads` results. -/
inductive Json where
  | jnull
  | jbool (b : Bool)
  | jnum (n : Int)
  | jstr (s : PyStr)
  | jarr (elems : List Json)
  | jobj (entries : List (PyStr × Json))

/-- The container classes dispatched on by `issubclass(cls, (dict, list, set, tuple))`. -/
inductive ContainerKind where
  | dict
  | list
  | set
  | tuple
deriving DecidableEq, Repr

/-- Python values produced by hydration (strings, booleans, containers,
scalar-constructor results, or arbitrary objects used as declared defaults). -/
inductive PyValue where
  | vStr (s : PyStr)
  | vBool (b : Bool)
  | vContainer (kind : ContainerKind) (j : Json)
  | vScalar (s : PyStr)
  | vOther (tag : Nat)

/-- External Python machinery used by `_hydrate_field`: `json.loads`
(failing with `JSONDecodeError`), container construction `cls(decoded)`
(failing with `TypeError`/`ValueError`), as consumed by the core. -/
structure PyEnv where
  loads : PyStr → Except Unit Json
  constructContainer : ContainerKind → Json → Except Unit PyValue

/-- The declared type of a leaf schema field, after the source's
`issubclass` dispatch: a container class, `bool`, or any other class with a
single-argument string constructor. -/
inductive FieldCls where
  | containerCls (kind : ContainerKind)
  | boolCls
  | scalarCls (ctor : PyStr → Except Unit PyValue)

/-- A declared default: either pydantic's `PydanticUndefined` sentinel
(no default declared) or an actual default value. -/
inductive PyDefault where
  | pydanticUndefined
  | value (v : PyValue)

/-- Model of `next(filter(matcher, wet_fields))`: the first matching field,
or `none` for the `StopIteration` case. -/
def findMatch (fields : List ItemField) (title : PyStr) (section_id : Option PyStr) :
    Option ItemField :=
  fields.find? (fun f => fieldMatcher f title section_id)

/-- Embedding of the leaf branch of `_hydrate_field` (core.py lines 113-132):
`ret_val = default`; find the first matching field (`StopIteration` when
none, caught: re-raised only when the default is `PydanticUndefined`);
resolve `op://` links (its `RuntimeError` is not caught); then dispatch on
the class — containers via `cls(loads(str_val))` (`JSONDecodeError` caught
and re-raised; construction errors not caught), `bool` via `_parse_bool`
(its `ValueError` not caught), otherwise `cls(str_val)`.
Returns the outcome together with the number of client resolve calls. -/
def hydrateField (env : PyEnv) (client : OpClient) (cls : FieldCls) (item : Item)
    (key : PyStr) (dflt : PyDefault) (section_id : Option PyStr) :
    Except PyErr PyValue × Nat :=
  match findMatch item.fields (pyLower key) section_id with
  | none =>
      match dflt with
      | .pydanticUndefined => (.error .stopIteration, 0)
      | .value v => (.ok v, 0)
  | some f =>
      match resolveOpLink client f.value with
      | (.error e, n) => (.error e, n)
      | (.ok str_val, n) =>
          match cls with
          | .containerCls kind =>
              match env.loads str_val with
              | .error _ => (.error .jsonDecodeError, n)
              | .ok decoded =>
                  match env.constructContainer kind decoded with
                  | .error _ => (.error .typeError, n)
                  | .ok v => (.ok v, n)
          | .boolCls =>
              match parseBool str_val with
              | .error e => (.error e, n)
              | .ok b => (.ok (.vBool b), n)
          | .scalarCls ctor =>
              match ctor str_val with
              | .error _ => (.error .valueError, n)
              | .ok v => (.ok v, n)

/-- A leaf field declaration of a schema: name, class, declared default. -/
structure LeafSpec where
  key : PyStr
  cls : FieldCls
  dflt : PyDefault

/-- Embedding of the `_hydrate_model` loop over leaf fields (core.py lines
140-156): fields are hydrated in declared order and the first raised
exception aborts the whole hydration. Call counts are accumulated. -/
def hydrateModel (env : PyEnv) (client : OpClient) (item : Item)
    (section_id : Option PyStr) :
    List LeafSpec → Except PyErr (List (PyStr × PyValue)) × Nat
  | [] => (.ok [], 0)
  | spec :: rest =>
      match hydrateField env client spec.cls item spec.key spec.dflt section_id with
      | (.error e, n) => (.error e, n)
      | (.ok v, n) =>
          match hydrateModel env client item section_id rest with
          | (.error e, m) => (.error e, n + m)
          | (.ok vs, m) => (.ok ((spec.key, v) :: vs), n + m)

/-- A client that answers every resolve call with the concrete value "final". -/
def wFinalClient : OpClient := ⟨fun _ => "final".data⟩

/-- A client that answers every resolve call with another `op://` reference. -/
def wLoopClient : OpClient := ⟨fun _ => "op://x".data⟩

/-- A client that returns its argument unchanged. -/
def wIdClient : OpClient := ⟨fun s => s⟩

/-- An item with no fields and no sections. -/
def wEmptyItem : Item := ⟨[], []⟩

/-- An unscoped field named "k" with concrete (non-reference) value "v". -/
def wFieldK : ItemField := ⟨"k".data, "v".data, none⟩

/-- An item holding only `wFieldK`. -/
def wOneFieldItem : Item := ⟨[wFieldK], []⟩

/-- A field titled "x" that lives inside section "X". -/
def wSectionedField : ItemField := ⟨"x".data, "v".data, some "X".data⟩

/-- A Python environment whose `json.loads` always fails. -/
def wBadJsonEnv : PyEnv := ⟨fun _ => .error (), fun _ _ => .error ()⟩

/-- A Python environment whose `json.loads` decodes to the number 5 and whose
container construction rejects it (as `dict(5)` does). -/
def wNumJsonEnv : PyEnv := ⟨fun _ => .ok (.jnum 5), fun _ _ => .error ()⟩

theorem char_toNat_ofNat_valid (n : Nat) (h : n < 55296) : (Char.ofNat n).toNat = n := by
  have hv : n.isValidChar := Or.inl (by omega)
  simp [Char.ofNat, hv, Char.ofNatAux, Char.toNat, UInt32.toNat, BitVec.toNat_ofNatLt]

theorem char_eq_iff_toNat (c d : Char) : c = d ↔ c.toNat = d.toNat := by
  constructor
  · intro h; rw [h]
  · intro h
    rcases c with ⟨⟨cb⟩, hc1⟩
    rcases d with ⟨⟨db⟩, hd1⟩
    simp only [Char.toNat, UInt32.toNat] at h
    have hb : cb = db := BitVec.eq_of_toNat_eq h
    subst hb
    rfl

theorem lowerChar_toNat_of_upper (c : Char) (h : 65 ≤ c.toNat ∧ c.toNat ≤ 90) :
    (lowerChar c).toNat = c.toNat + 32 := by
  simp only [lowerChar, if_pos h]
  exact char_toNat_ofNat_valid _ (by omega)

theorem lowerChar_idem (c : Char) : lowerChar (lowerChar c) = lowerChar c := by
  by_cases h : 65 ≤ c.toNat ∧ c.toNat ≤ 90
  · have h1 := lowerChar_toNat_of_upper c h
    have h2 : ¬ (65 ≤ (lowerChar c).toNat ∧ (lowerChar c).toNat ≤ 90) := by omega
    conv_lhs => rw [lowerChar]
    rw [if_neg h2]
  · have h2 : lowerChar c = c := by rw [lowerChar, if_neg h]
    rw [h2, h2]

theorem lowerChar_ne_dash (c : Char) (h : c ≠ '-') : lowerChar c ≠ '-' := by
  by_cases hu : 65 ≤ c.toNat ∧ c.toNat ≤ 90
  · have h1 := lowerChar_toNat_of_upper c hu
    intro hc
    have h45 : (lowerChar c).toNat = 45 := by rw [hc]; decide
    omega
  · rw [lowerChar, if_neg hu]; exact h

theorem replaceDashChar_ne_dash (c : Char) : replaceDashChar c ≠ '-' := by
  unfold replaceDashChar
  by_cases h : c = '-'
  · rw [if_pos h]; decide
  · rw [if_neg h]; exact h

theorem replaceDashChar_eq_self (c : Char) (h : c ≠ '-') : replaceDashChar c = c := by
  rw [replaceDashChar, if_neg h]

theorem normChar_idem (c : Char) :
    lowerChar (replaceDashChar (lowerChar (replaceDashChar c))) =
      lowerChar (replaceDashChar c) := by
  have hd : replaceDashChar c ≠ '-' := replaceDashChar_ne_dash c
  have hl : lowerChar (replaceDashChar c) ≠ '-' := lowerChar_ne_dash _ hd
  rw [replaceDashChar_eq_self _ hl, lowerChar_idem]

theorem clientIter_shift (client : OpClient) (link : PyStr) (i : Nat) :
    clientIter client (client.resolve link) i = clientIter client link (i + 1) := by
  induction i with
  | zero => rfl
  | succ n ih => simp [clientIter, ih]

theorem resolveAux_ok (client : OpClient) :
    ∀ (k : Nat) (link : PyStr) (m c : Nat), m + k ≤ 9 →
      (∀ i < k, listStartsWith (clientIter client link i) opLinkMarker = true) →
      listStartsWith (clientIter client link k) opLinkMarker = false →
      resolveAux client link m c = (.ok (clientIter client link k), c + k) := by
  intro k
  induction k with
  | zero =>
    intro link m c hm hchain hend
    simp only [clientIter] at hend
    rw [resolveAux]
    simp [hend, clientIter]
  | succ n ih =>
    intro link m c hm hchain hend
    have h0 : listStartsWith link opLinkMarker = true := hchain 0 (Nat.succ_pos n)
    have hm9 : ¬ (m + 1 > 9) := by omega
    rw [resolveAux]
    simp only [clientIter] at h0
    rw [h0]
    simp only [if_true, dif_neg hm9]
    have hrec := ih (client.resolve link) (m + 1) (c + 1) (by omega)
      (fun i hi => by rw [clientIter_shift]; exact hchain (i + 1) (by omega))
      (by rw [clientIter_shift]; exact hend)
    rw [hrec, clientIter_shift]
    congr 1
    omega

theorem resolveAux_err (client : OpClient) :
    ∀ (j : Nat) (link : PyStr) (m c : Nat), m + j = 10 → 1 ≤ j →
      (∀ i < j, listStartsWith (clientIter client link i) opLinkMarker = true) →
      resolveAux client link m c = (.error .runtimeError, c + j) := by
  intro j
  induction j with
  | zero => intro link m c hm hj hchain; omega
  | succ n ih =>
    intro link m c hm hj hchain
    have h0 : listStartsWith link opLinkMarker = true := hchain 0 (Nat.succ_pos n)
    rw [resolveAux, h0]
    simp only [if_true]
    rcases Nat.eq_zero_or_pos n with hn | hn
    · subst hn
      have hm9 : m + 1 > 9 := by omega
      rw [dif_pos hm9]
    · have hm9 : ¬ (m + 1 > 9) := by omega
      rw [dif_neg hm9]
      have hrec := ih (client.resolve link) (m + 1) (c + 1) (by omega) hn
        (fun i hi => by rw [clientIter_shift]; exact hchain (i + 1) (by omega))
      rw [hrec]
      congr 1
      omega

theorem truthy_not_trumpy (v : PyStr) (h : v ∈ truthy) : v ∉ trumpy := by
  simp only [truthy, List.mem_cons, List.not_mem_nil, or_false] at h
  rcases h with h | h | h | h <;> subst h <;> decide

/-- C4: a reference chain of length `k ≤ 9` (with `k = 0` the case of a
non-reference string, returned unchanged with zero client calls) resolves to
the chain's final concrete value after exactly `k` client calls, and a chain
of length 10 or more fails with the too-deep `RuntimeError`. -/
theorem c4_chain_resolution (client : OpClient) (link : PyStr) (k : Nat)
    (h : chainOfLength client link k) :
    resolveOpLink client link =
      if k ≤ 9 then (.ok (clientIter client link k), k)
      else (.error .runtimeError, 10) := by
  rcases h with ⟨hchain, hend⟩
  by_cases hk : k ≤ 9
  · rw [if_pos hk, resolveOpLink]
    have := resolveAux_ok client k link 0 0 (by omega) hchain hend
    simpa using this
  · rw [if_neg hk, resolveOpLink]
    have := resolveAux_err client 10 link 0 0 (by omega) (by omega)
      (fun i hi => hchain i (by omega))
    simpa using this

theorem c4_witness :
    chainOfLength wFinalClient ("op://a".data) 1 ∧
    resolveOpLink wFinalClient ("op://a".data) = (.ok ("final".data), 1) := by
  have hch : chainOfLength wFinalClient ("op://a".data) 1 := by
    constructor
    · decide
    · decide
  refine ⟨hch, ?_⟩
  have := c4_chain_resolution wFinalClient ("op://a".data) 1 hch
  simpa [clientIter, wFinalClient] using this

/-- C8: on a chain that is still a reference after 10 hops, the resolver
makes exactly 10 client calls before raising: the tenth call is made and its
result discarded when the depth error fires. -/
theorem c8_ten_calls_on_deep_chain (client : OpClient) (link : PyStr)
    (h : ∀ i < 10, listStartsWith (clientIter client link i) opLinkMarker = true) :
    resolveOpLink client link = (.error .runtimeError, 10) := by
  rw [resolveOpLink]
  have := resolveAux_err client 10 link 0 0 (by omega) (by omega) h
  simpa using this

theorem c8_witness :
    (∀ i < 10,
      listStartsWith (clientIter wLoopClient ("op://x".data) i) opLinkMarker = true) ∧
    resolveOpLink wLoopClient ("op://x".data) = (.error .runtimeError, 10) := by
  have h : ∀ i < 10,
      listStartsWith (clientIter wLoopClient ("op://x".data) i) opLinkMarker = true := by
    decide
  exact ⟨h, c8_ten_calls_on_deep_chain wLoopClient ("op://x".data) h⟩

/-- C7: the name normalizer (replace every hyphen with an underscore, then
lowercase) is idempotent. -/
theorem c7_normalize_idempotent (s : PyStr) :
    opFieldNameToLowerSnakeCase (opFieldNameToLowerSnakeCase s) =
      opFieldNameToLowerSnakeCase s := by
  induction s with
  | nil => rfl
  | cons c cs ih =>
    simp only [opFieldNameToLowerSnakeCase, pyLower, pyReplaceDash, List.map_cons] at ih ⊢
    rw [normChar_idem c, ih]

/-- C6: boolean coercion strips surrounding whitespace and lowercases its
input, yields `true` exactly on the truthy vocabulary, `false` exactly on the
falsy vocabulary, and a `ValueError` exactly otherwise. -/
theorem c6_parse_bool_spec (s : PyStr) :
    (parseBool s = .ok true ↔ pyLower (pyStrip s) ∈ truthy) ∧
    (parseBool s = .ok false ↔ pyLower (pyStrip s) ∈ trumpy) ∧
    (parseBool s = .error .valueError ↔
      (pyLower (pyStrip s) ∉ truthy ∧ pyLower (pyStrip s) ∉ trumpy)) := by
  by_cases h1 : pyLower (pyStrip s) ∈ truthy
  · have h2 : pyLower (pyStrip s) ∉ trumpy := truthy_not_trumpy _ h1
    simp [parseBool, h1, h2]
  · by_cases h2 : pyLower (pyStrip s) ∈ trumpy
    · simp [parseBool, h1, h2]
    · simp [parseBool, h1, h2]

/-- C1 counterexample: the field titled "x" scoped to section "X" is returned
by the field matcher when the requested scope is None, contradicting the
claim that a field with a section id never matches under "no scope". -/
theorem c1_counterexample :
    findMatch [wSectionedField] ("x".data) none = some wSectionedField := by
  decide

/-- C1 (amended): when a non-empty scope S is requested, only a field whose
section_id is exactly S can be returned (so a field with a different section
or with no section never matches); but when the requested scope is None, the
section is not checked at all — any field with matching normalized title
matches regardless of its section_id. -/
theorem c1_scope_matching_amended :
    (∀ (fields : List ItemField) (key S : PyStr) (f : ItemField),
      findMatch fields key (some S) = some f →
      opFieldNameToLowerSnakeCase f.title = key ∧ f.section_id = some S) ∧
    (∀ (f : ItemField) (key : PyStr),
      fieldMatcher f key none = decide (opFieldNameToLowerSnakeCase f.title = key)) := by
  constructor
  · intro fields key S f h
    have hp := List.find?_some h
    simp only [fieldMatcher, Bool.and_eq_true, Bool.or_eq_true, decide_eq_true_eq,
      Option.isNone_some, Bool.false_eq_true, false_or] at hp
    exact hp
  · intro f key
    simp [fieldMatcher]

theorem c1_witness :
    opFieldNameToLowerSnakeCase wSectionedField.title = "x".data ∧
    wSectionedField.section_id = some ("X".data) :=
  c1_scope_matching_amended.1 [wSectionedField] ("x".data) ("X".data) wSectionedField
    (by decide)

/-- C2 counterexample: for an item with the single section (id "s1",
title "A-B"), the section index has no entry at the normalized title "a_b"
(hyphen replaced, then lowercased); the actual key is the merely lowercased
"a-b". This contradicts the claim that the index is keyed by normalized
titles. -/
theorem c2_counterexample :
    getSections ⟨[], [⟨"s1".data, "A-B".data⟩]⟩ (opFieldNameToLowerSnakeCase ("A-B".data))
        = none ∧
    getSections ⟨[], [⟨"s1".data, "A-B".data⟩]⟩ (pyLower ("A-B".data)) = some ("s1".data) := by
  constructor <;> decide

theorem gsAux_spec (k : PyStr) : ∀ (l : List ItemSection),
    l.foldl gsStep emptyDict k =
      (l.reverse.find? (fun s => !s.title.isEmpty && (pyLower s.title == k))).map
        ItemSection.id := by
  intro l
  induction l using List.reverseRecOn with
  | nil => rfl
  | append_singleton l a ih =>
    rw [List.foldl_append, List.reverse_append]
    simp only [List.foldl_cons, List.foldl_nil, List.reverse_cons, List.reverse_nil,
      List.nil_append, List.singleton_append]
    by_cases ht : a.title = []
    · have hp : ¬ ((!a.title.isEmpty && (pyLower a.title == k)) = true) := by
        rw [ht]; simp
      rw [@List.find?_cons_of_neg _ (fun s => !s.title.isEmpty && (pyLower s.title == k))
        a l.reverse hp]
      rw [show gsStep (List.foldl gsStep emptyDict l) a = List.foldl gsStep emptyDict l from
        by rw [gsStep, if_pos ht]]
      exact ih
    · by_cases hk : k = pyLower a.title
      · have hne : a.title.isEmpty = false := by
          cases hat : a.title with
          | nil => exact absurd hat ht
          | cons c cs => rfl
        have hp : (!a.title.isEmpty && (pyLower a.title == k)) = true := by
          rw [hne, hk]
          simp
        rw [@List.find?_cons_of_pos _ (fun s => !s.title.isEmpty && (pyLower s.title == k))
          a l.reverse hp]
        rw [show gsStep (List.foldl gsStep emptyDict l) a =
            dictInsert (List.foldl gsStep emptyDict l) (pyLower a.title) a.id from
          by rw [gsStep, if_neg ht]]
        simp [dictInsert, hk]
      · have hp : ¬ ((!a.title.isEmpty && (pyLower a.title == k)) = true) := by
          simp only [Bool.and_eq_true, beq_iff_eq]
          intro hcon
          exact hk hcon.2.symm
        rw [@List.find?_cons_of_neg _ (fun s => !s.title.isEmpty && (pyLower s.title == k))
          a l.reverse hp]
        rw [show gsStep (List.foldl gsStep emptyDict l) a =
            dictInsert (List.foldl gsStep emptyDict l) (pyLower a.title) a.id from
          by rw [gsStep, if_neg ht]]
        rw [show dictInsert (List.foldl gsStep emptyDict l) (pyLower a.title) a.id k =
            List.foldl gsStep emptyDict l k from by rw [dictInsert]; exact if_neg hk]
        exact ih

/-- C2 (amended): the section index maps the lowercased title of each section
whose title is non-empty to that section's id — hyphens are NOT replaced by
underscores, only lowercasing is applied; empty-titled sections are skipped,
and on duplicate lowercased titles the last section in the item's list wins
(the index answers with the last qualifying section). -/
theorem c2_section_index_amended (item : Item) (k : PyStr) :
    getSections item k =
      (item.sections.reverse.find?
        (fun s => !s.title.isEmpty && (pyLower s.title == k))).map ItemSection.id :=
  gsAux_spec k item.sections

theorem resolveOpLink_not_ref (client : OpClient) (link : PyStr)
    (h : listStartsWith link opLinkMarker = false) :
    resolveOpLink client link = (.ok link, 0) := by
  rw [resolveOpLink, resolveAux]
  simp [h]

/-- C3: for a leaf schema field with no matching item field, hydration uses
the declared default (with zero client calls, so no link resolution) when one
is declared, and otherwise fails with the required-field-missing error
(`StopIteration` re-raised), which aborts the whole model hydration. -/
theorem c3_missing_field_default_or_error (env : PyEnv) (client : OpClient)
    (cls : FieldCls) (item : Item) (key : PyStr) (dflt : PyDefault)
    (section_id : Option PyStr) (rest : List LeafSpec)
    (hnone : ∀ f ∈ item.fields, fieldMatcher f (pyLower key) section_id = false) :
    (dflt = .pydanticUndefined →
      hydrateField env client cls item key dflt section_id =
        (.error .stopIteration, 0) ∧
      (hydrateModel env client item section_id (⟨key, cls, dflt⟩ :: rest)).1 =
        .error .stopIteration) ∧
    (∀ v, dflt = .value v →
      hydrateField env client cls item key dflt section_id = (.ok v, 0)) := by
  have hfind : findMatch item.fields (pyLower key) section_id = none := by
    rw [findMatch, List.find?_eq_none]
    intro f hf
    simp [hnone f hf]
  constructor
  · intro hd
    subst hd
    have hfield : hydrateField env client cls item key .pydanticUndefined section_id =
        (.error .stopIteration, 0) := by
      simp [hydrateField, hfind]
    exact ⟨hfield, by simp [hydrateModel, hfield]⟩
  · intro v hd
    subst hd
    simp [hydrateField, hfind]

theorem c3_witness :
    (∀ f ∈ wEmptyItem.fields, fieldMatcher f (pyLower ("k".data)) none = false) ∧
    hydrateField wBadJsonEnv wIdClient .boolCls wEmptyItem ("k".data)
      .pydanticUndefined none = (.error .stopIteration, 0) := by
  have h : ∀ f ∈ wEmptyItem.fields, fieldMatcher f (pyLower ("k".data)) none = false := by
    intro f hf
    simp [wEmptyItem] at hf
  exact ⟨h, ((c3_missing_field_default_or_error wBadJsonEnv wIdClient .boolCls wEmptyItem
    ("k".data) .pydanticUndefined none [] h).1 rfl).1⟩

/-- C5: for a container-typed field whose matching item field resolves to the
string `s`, the value is obtained by JSON-decoding `s` and constructing the
container from the decoded structure; when `s` is not valid JSON the
`JSONDecodeError` is re-raised — for any declared default — and aborts the
whole model hydration. -/
theorem c5_container_json (env : PyEnv) (client : OpClient) (kind : ContainerKind)
    (item : Item) (key : PyStr) (dflt : PyDefault) (section_id : Option PyStr)
    (f : ItemField) (s : PyStr) (n : Nat) (rest : List LeafSpec)
    (hfind : findMatch item.fields (pyLower key) section_id = some f)
    (hres : resolveOpLink client f.value = (.ok s, n)) :
    (∀ j v, env.loads s = .ok j → env.constructContainer kind j = .ok v →
      hydrateField env client (.containerCls kind) item key dflt section_id =
        (.ok v, n)) ∧
    (env.loads s = .error () →
      hydrateField env client (.containerCls kind) item key dflt section_id =
        (.error .jsonDecodeError, n) ∧
      (hydrateModel env client item section_id
        (⟨key, .containerCls kind, dflt⟩ :: rest)).1 = .error .jsonDecodeError) := by
  constructor
  · intro j v hj hv
    simp [hydrateField, hfind, hres, hj, hv]
  · intro hj
    have hfield : hydrateField env client (.containerCls kind) item key dflt section_id =
        (.error .jsonDecodeError, n) := by
      simp [hydrateField, hfind, hres, hj]
    exact ⟨hfield, by simp [hydrateModel, hfield]⟩

theorem c5_witness :
    hydrateField wBadJsonEnv wIdClient (.containerCls .dict) wOneFieldItem ("k".data)
      (.value (.vStr "d".data)) none = (.error .jsonDecodeError, 0) := by
  have hfind : findMatch wOneFieldItem.fields (pyLower ("k".data)) none = some wFieldK := by
    decide
  have hres : resolveOpLink wIdClient wFieldK.value = (.ok ("v".data), 0) :=
    resolveOpLink_not_ref wIdClient ("v".data) (by decide)
  exact ((c5_container_json wBadJsonEnv wIdClient .dict wOneFieldItem ("k".data)
    (.value (.vStr "d".data)) none wFieldK ("v".data) 0 [] hfind hres).2 rfl).1

/-- C9: for a container-typed field whose resolved value is valid JSON but
whose decoded structure the container constructor rejects, hydration fails
with the construction error (`TypeError`), which is distinct from the
JSON-decode error, is not replaced by the declared default, and aborts the
whole model hydration. -/
theorem c9_container_construction_error (env : PyEnv) (client : OpClient)
    (kind : ContainerKind) (item : Item) (key : PyStr) (dflt : PyDefault)
    (section_id : Option PyStr) (f : ItemField) (s : PyStr) (n : Nat) (j : Json)
    (rest : List LeafSpec)
    (hfind : findMatch item.fields (pyLower key) section_id = some f)
    (hres : resolveOpLink client f.value = (.ok s, n))
    (hj : env.loads s = .ok j)
    (hc : env.constructContainer kind j = .error ()) :
    hydrateField env client (.containerCls kind) item key dflt section_id =
      (.error .typeError, n) ∧
    PyErr.typeError ≠ PyErr.jsonDecodeError ∧
    (hydrateModel env client item section_id
      (⟨key, .containerCls kind, dflt⟩ :: rest)).1 = .error .typeError := by
  have hfield : hydrateField env client (.containerCls kind) item key dflt section_id =
      (.error .typeError, n) := by
    simp [hydrateField, hfind, hres, hj, hc]
  exact ⟨hfield, by decide, by simp [hydrateModel, hfield]⟩

theorem c9_witness :
    hydrateField wNumJsonEnv wIdClient (.containerCls .dict) wOneFieldItem ("k".data)
      (.value (.vStr "d".data)) none = (.error .typeError, 0) := by
  have hfind : findMatch wOneFieldItem.fields (pyLower ("k".data)) none = some wFieldK := by
    decide
  have hres : resolveOpLink wIdClient wFieldK.value = (.ok ("v".data), 0) :=
    resolveOpLink_not_ref wIdClient ("v".data) (by decide)
  exact (c9_container_construction_error wNumJsonEnv wIdClient .dict wOneFieldItem
    ("k".data) (.value (.vStr "d".data)) none wFieldK ("v".data) 0 (.jnum 5) []
    hfind hres rfl rfl).1

/-- C10: when the default fallback fires (no matching field, default
declared), the declared default is the hydrated value verbatim, with zero
client resolve calls — it is not passed through link resolution or coercion,
so a default string beginning with `op://` is stored unresolved. -/
theorem c10_default_verbatim (env : PyEnv) (client : OpClient) (cls : FieldCls)
    (item : Item) (key : PyStr) (section_id : Option PyStr) (v : PyValue)
    (hnone : ∀ f ∈ item.fields, fieldMatcher f (pyLower key) section_id = false) :
    hydrateField env client cls item key (.value v) section_id = (.ok v, 0) := by
  have hfind : findMatch item.fields (pyLower key) section_id = none := by
    rw [findMatch, List.find?_eq_none]
    intro f hf
    simp [hnone f hf]
  simp [hydrateField, hfind]

theorem c10_witness :
    hydrateField wBadJsonEnv wIdClient (.scalarCls (fun s => .ok (.vStr s))) wEmptyItem
      ("k".data) (.value (.vStr "op://secret".data)) none =
      (.ok (.vStr "op://secret".data), 0) :=
  c10_default_verbatim wBadJsonEnv wIdClient (.scalarCls (fun s => .ok (.vStr s)))
    wEmptyItem ("k".data) none (.vStr "op://secret".data)
    (by intro f hf; simp [wEmptyItem] at hf)
